import Mathlib

deriving instance DecidableEq for Except

/-!
Verification of the dev-events persistence layer: a shallow embedding of
the Event model's normalizers and pre-save hook (src/database/event.model.ts),
the Booking model's pre-save hook (booking model), and the memoized
database-connection helper, together with theorems about them.

JavaScript strings are modelled as Lean `String` / `List Char`; machine
numbers appearing here are small integers modelled by `Nat` / `Int`.
-/

namespace DevEvents

/-! ## JavaScript string primitives used by the models -/

/-- Code points of the JavaScript whitespace class (the regex class the
source relies on via `\s` and `String.prototype.trim`): tab, LF, VT, FF,
CR, space, NBSP, the Unicode space separators, LS, PS, NNBSP, MMSP,
ideographic space and the BOM. -/
def jsWhitespaceCodes : List Nat :=
  [9, 10, 11, 12, 13, 32, 160, 5760, 8192, 8193, 8194, 8195, 8196, 8197,
   8198, 8199, 8200, 8201, 8202, 8232, 8233, 8239, 8287, 12288, 65279]

def isJsWhitespace (c : Char) : Bool := jsWhitespaceCodes.contains c.toNat

/-- `String.prototype.trim`: drop whitespace from both ends. -/
def trimJs (cs : List Char) : List Char :=
  ((cs.dropWhile isJsWhitespace).reverse.dropWhile isJsWhitespace).reverse

/-- The regex class `\d`, i.e. an ASCII decimal digit (codes 48 to 57). -/
def isDigitCh (c : Char) : Bool := decide (48 ≤ c.toNat ∧ c.toNat ≤ 57)

/-- Numeric value of an ASCII digit character. -/
def digitVal (c : Char) : Nat := c.toNat - 48

/-- The ASCII digit character for `n % 10`. -/
def digitChar (n : Nat) : Char :=
  match n % 10 with
  | 0 => '0' | 1 => '1' | 2 => '2' | 3 => '3' | 4 => '4'
  | 5 => '5' | 6 => '6' | 7 => '7' | 8 => '8' | _ => '9'

/-- Worker for `natDigits`, structurally recursive on a fuel argument so
that it reduces definitionally; the fuel is always strictly larger than
the number. -/
def natDigitsAux (fuel n : Nat) : List Char :=
  match fuel with
  | 0 => []
  | fuel + 1 =>
    if n < 10 then [digitChar n]
    else natDigitsAux fuel (n / 10) ++ [digitChar (n % 10)]

/-- Decimal digit characters of a natural number, most significant first
(the JavaScript `Number.prototype.toString` rendering of a nonnegative
integer). -/
def natDigits (n : Nat) : List Char := natDigitsAux (n + 1) n

/-- `String.prototype.padStart(w, "0")` on a digit string. -/
def padTo (w : Nat) (cs : List Char) : List Char :=
  List.replicate (w - cs.length) '0' ++ cs

/-- A number rendered with `toString().padStart(2, "0")`. -/
def pad2 (n : Nat) : List Char := padTo 2 (natDigits n)

/-! ## Event model: time normalization

Model of `normalizeTime` (src/database/event.model.ts).  The source
matches the trimmed input against `^(\d{1,2}):(\d{2})(?::\d{2})?$` and
converts the two captures with `Number`. -/

/-- Match a character list against `^(\d{1,2}):(\d{2})(?::\d{2})?$`,
returning the numeric values of the two captures (hours, minutes).  The
four list shapes below are exactly the strings accepted by the regex. -/
def timeMatch : List Char → Option (Nat × Nat)
  | [h1, c1, m1, m2] =>
    if c1 = ':' ∧ isDigitCh h1 ∧ isDigitCh m1 ∧ isDigitCh m2 then
      some (digitVal h1, 10 * digitVal m1 + digitVal m2)
    else none
  | [h1, h2, c1, m1, m2] =>
    if c1 = ':' ∧ isDigitCh h1 ∧ isDigitCh h2 ∧ isDigitCh m1 ∧ isDigitCh m2 then
      some (10 * digitVal h1 + digitVal h2, 10 * digitVal m1 + digitVal m2)
    else none
  | [h1, c1, m1, m2, c2, s1, s2] =>
    if c1 = ':' ∧ c2 = ':' ∧
        isDigitCh h1 ∧ isDigitCh m1 ∧ isDigitCh m2 ∧ isDigitCh s1 ∧ isDigitCh s2 then
      some (digitVal h1, 10 * digitVal m1 + digitVal m2)
    else none
  | [h1, h2, c1, m1, m2, c2, s1, s2] =>
    if c1 = ':' ∧ c2 = ':' ∧ isDigitCh h1 ∧ isDigitCh h2 ∧
        isDigitCh m1 ∧ isDigitCh m2 ∧ isDigitCh s1 ∧ isDigitCh s2 then
      some (10 * digitVal h1 + digitVal h2, 10 * digitVal m1 + digitVal m2)
    else none
  | _ => none

/-- Model of `normalizeTime`.  The `hours < 0 || minutes < 0` half of the
source's range check is vacuous here because the captures are digit
strings (modelled as `Nat`). -/
def normalizeTime (value : String) : Except String String :=
  match timeMatch (trimJs value.data) with
  | none => Except.error "Invalid event time format (expected HH:mm)"
  | some (hours, minutes) =>
    if 23 < hours ∨ 59 < minutes then Except.error "Invalid event time value"
    else Except.ok (String.mk (pad2 hours ++ ':' :: pad2 minutes))

/-! ## Event model: slug generation

Model of `generateSlug` (src/database/event.model.ts):
lowercase, trim, delete `[^a-z0-9\s-]`, replace `\s+` runs with a single
dash, collapse `-+` runs to a single dash. -/

/-- Characters kept by `replace(/[^a-z0-9\s-]/g, "")`:
lowercase ASCII letters, digits, whitespace, and the dash. -/
def keepSlugChar (c : Char) : Bool :=
  decide ((97 ≤ c.toNat ∧ c.toNat ≤ 122) ∨ (48 ≤ c.toNat ∧ c.toNat ≤ 57)) ||
    isJsWhitespace c || c == '-'

/-- Replace every maximal run of characters satisfying `p` with the single
character `d` (the effect of `replace(/p+/g, d)`).  The boolean flag
records whether the previous character was inside a run. -/
def collapseRunsAux (p : Char → Bool) (d : Char) : List Char → Bool → List Char
  | [], _ => []
  | c :: rest, inRun =>
    if p c then
      if inRun then collapseRunsAux p d rest true
      else d :: collapseRunsAux p d rest true
    else c :: collapseRunsAux p d rest false

def collapseRuns (p : Char → Bool) (d : Char) (cs : List Char) : List Char :=
  collapseRunsAux p d cs false

/-- Model of `generateSlug`.  `Char.toLower` models
`String.prototype.toLowerCase` (they agree on ASCII; non-ASCII letters are
deleted by the following filter in either reading). -/
def generateSlug (title : String) : String :=
  let lowered := title.data.map Char.toLower
  let trimmed := trimJs lowered
  let cleaned := trimmed.filter keepSlugChar
  let dashed := collapseRuns isJsWhitespace '-' cleaned
  String.mk (collapseRuns (fun c => c == '-') '-' dashed)

/-! ## Event model: date normalization

`normalizeDate` (src/database/event.model.ts) builds `new Date(value)`,
fails when `getTime()` is NaN, and otherwise returns
`date.toISOString().split("T")[0]`.  The `Date` built-in is modelled by
the ECMAScript Date Time String Format — `YYYY[-MM[-DD]]` with an
optional `THH:mm[:ss[.sss]]` and an optional offset `Z` / `+HH:mm` /
`-HH:mm` — the one format the language standard requires `Date` to parse.
A date-time without an offset is interpreted in local time; the local
zone is passed in explicitly as `tzOffsetMinutes`, the value of
`getTimezoneOffset()` (minutes to add to local time to reach UTC). -/

/-- A proleptic-Gregorian leap year. -/
def isLeapYear (y : Int) : Bool := y % 4 = 0 ∧ (y % 100 ≠ 0 ∨ y % 400 = 0)

def daysInMonth (y : Int) (m : Nat) : Nat :=
  if m = 2 then (if isLeapYear y then 29 else 28)
  else if m = 4 ∨ m = 6 ∨ m = 9 ∨ m = 11 then 30
  else 31

/-- Days from the Unix epoch to the civil date `y-m-d`
(standard civil-calendar conversion, floor divisions). -/
def daysFromCivil (y : Int) (m d : Nat) : Int :=
  let y1 : Int := if m ≤ 2 then y - 1 else y
  let era : Int := y1 / 400
  let yoe : Int := y1 - era * 400
  let mp : Nat := (m + 9) % 12
  let doy : Nat := (153 * mp + 2) / 5 + d - 1
  let doe : Int := yoe * 365 + yoe / 4 - yoe / 100 + (doy : Int)
  era * 146097 + doe - 719468

/-- Civil date `(year, month, day)` of a day count from the Unix epoch
(inverse of `daysFromCivil`). -/
def civilFromDays (z0 : Int) : Int × Nat × Nat :=
  let z := z0 + 719468
  let era : Int := z / 146097
  let doe : Nat := (z - era * 146097).toNat
  let yoe : Nat := (doe - doe / 1460 + doe / 36524 - doe / 146096) / 365
  let y1 : Int := (yoe : Int) + era * 400
  let doy : Nat := doe - (365 * yoe + yoe / 4 - yoe / 100)
  let mp : Nat := (5 * doy + 2) / 153
  let d : Nat := doy - (153 * mp + 2) / 5 + 1
  let m : Nat := if mp < 10 then mp + 3 else mp - 9
  (if m ≤ 2 then y1 + 1 else y1, m, d)

def msPerDay : Int := 86400000

/-- Year field of `toISOString`: four digits for years 0 to 9999,
otherwise the expanded six-digit form with an explicit sign. -/
def isoYearChars (y : Int) : List Char :=
  if 0 ≤ y ∧ y ≤ 9999 then padTo 4 (natDigits y.toNat)
  else if y < 0 then '-' :: padTo 6 (natDigits (-y).toNat)
  else '+' :: padTo 6 (natDigits y.toNat)

/-- The `YYYY-MM-DD` part of `toISOString` for a time value `ms`. -/
def isoDatePart (ms : Int) : List Char :=
  let c := civilFromDays (ms / msPerDay)
  isoYearChars c.1 ++ '-' :: pad2 c.2.1 ++ '-' :: pad2 c.2.2

/-- The `HH:mm:ss.sssZ` part of `toISOString` for a time value `ms`. -/
def isoTimePart (ms : Int) : List Char :=
  let msod : Nat := (ms % msPerDay).toNat
  pad2 (msod / 3600000) ++ ':' :: pad2 (msod / 60000 % 60) ++
    ':' :: pad2 (msod / 1000 % 60) ++ '.' :: padTo 3 (natDigits (msod % 1000)) ++ ['Z']

/-- Model of `Date.prototype.toISOString`. -/
def toISOString (ms : Int) : List Char := isoDatePart ms ++ 'T' :: isoTimePart ms

/-- Read exactly `w` ASCII digits from the front of the list. -/
def readFixedNat (w : Nat) (cs : List Char) : Option (Nat × List Char) :=
  let pre := cs.take w
  if pre.length = w ∧ pre.all isDigitCh then
    some (pre.foldl (fun a c => 10 * a + digitVal c) 0, cs.drop w)
  else none

/-- Parse the date part `YYYY[-MM[-DD]]`; a missing month or day defaults
to 1. -/
def parseDatePart (cs : List Char) : Option (Nat × Nat × Nat × List Char) :=
  match readFixedNat 4 cs with
  | none => none
  | some (y, rest) =>
    match rest with
    | '-' :: rest1 =>
      match readFixedNat 2 rest1 with
      | none => none
      | some (mo, rest2) =>
        match rest2 with
        | '-' :: rest3 =>
          match readFixedNat 2 rest3 with
          | none => none
          | some (d, rest4) => some (y, mo, d, rest4)
        | _ => some (y, mo, 1, rest2)
    | _ => some (y, 1, 1, rest)

/-- Parse `HH:mm[:ss[.sss]]`, returning hours, minutes, seconds,
milliseconds and the remaining characters. -/
def parseTimeOfDay (cs : List Char) : Option (Nat × Nat × Nat × Nat × List Char) :=
  match readFixedNat 2 cs with
  | some (h, ':' :: r1) =>
    match readFixedNat 2 r1 with
    | some (mi, ':' :: r2) =>
      match readFixedNat 2 r2 with
      | some (s, '.' :: r3) =>
        match readFixedNat 3 r3 with
        | some (f, r4) => some (h, mi, s, f, r4)
        | none => none
      | some (s, r3) => some (h, mi, s, 0, r3)
      | none => none
    | some (mi, r2) => some (h, mi, 0, 0, r2)
    | none => none
  | _ => none

/-- Time-zone designator at the end of a date-time string. -/
inductive OffsetSpec
  | localTime
  | utc
  | east (h mi : Nat)
  | west (h mi : Nat)
deriving DecidableEq, Repr

/-- Parse the optional offset: nothing (local time), `Z`, or `±HH:mm`. -/
def parseOffset (cs : List Char) : Option OffsetSpec :=
  match cs with
  | [] => some OffsetSpec.localTime
  | ['Z'] => some OffsetSpec.utc
  | '+' :: rest =>
    match readFixedNat 2 rest with
    | some (h, ':' :: rest2) =>
      match readFixedNat 2 rest2 with
      | some (mi, []) => if h ≤ 23 ∧ mi ≤ 59 then some (OffsetSpec.east h mi) else none
      | _ => none
    | _ => none
  | '-' :: rest =>
    match readFixedNat 2 rest with
    | some (h, ':' :: rest2) =>
      match readFixedNat 2 rest2 with
      | some (mi, []) => if h ≤ 23 ∧ mi ≤ 59 then some (OffsetSpec.west h mi) else none
      | _ => none
    | _ => none
  | _ => none

/-- The largest time value a `Date` may hold (8.64e15 ms). -/
def maxTimeValue : Int := 8640000000000000

/-- Model of `new Date(value).getTime()` for the ECMAScript Date Time
String Format: `none` models a NaN time value.  A date-only string is
read as UTC midnight; a date-time without an offset is read as local
time, shifted to UTC by `tzOffsetMinutes`. -/
def jsDateParse (tzOffsetMinutes : Int) (value : String) : Option Int :=
  match parseDatePart value.data with
  | none => none
  | some (y, mo, d, rest) =>
    if 1 ≤ mo ∧ mo ≤ 12 ∧ 1 ≤ d ∧ d ≤ daysInMonth (y : Int) mo then
      let base : Int := daysFromCivil (y : Int) mo d * msPerDay
      match rest with
      | [] =>
        if -maxTimeValue ≤ base ∧ base ≤ maxTimeValue then some base else none
      | 'T' :: tcs =>
        match parseTimeOfDay tcs with
        | none => none
        | some (h, mi, s, f, rest2) =>
          if (h ≤ 23 ∨ (h = 24 ∧ mi = 0 ∧ s = 0 ∧ f = 0)) ∧ mi ≤ 59 ∧ s ≤ 59 then
            match parseOffset rest2 with
            | none => none
            | some off =>
              let lmsRaw : Int := base + (h : Int) * 3600000 + (mi : Int) * 60000 +
                (s : Int) * 1000 + (f : Int)
              let ms : Int :=
                match off with
                | OffsetSpec.localTime => lmsRaw + tzOffsetMinutes * 60000
                | OffsetSpec.utc => lmsRaw
                | OffsetSpec.east oh om => lmsRaw - ((oh : Int) * 3600000 + (om : Int) * 60000)
                | OffsetSpec.west oh om => lmsRaw + ((oh : Int) * 3600000 + (om : Int) * 60000)
              if -maxTimeValue ≤ ms ∧ ms ≤ maxTimeValue then some ms else none
          else none
      | _ => none
    else none

/-- Model of `normalizeDate`: parse, fail on NaN, otherwise keep the part
of `toISOString()` before the `"T"` (`split("T")[0]`). -/
def normalizeDate (tzOffsetMinutes : Int) (value : String) : Except String String :=
  match jsDateParse tzOffsetMinutes value with
  | none => Except.error "Invalid event date"
  | some ms => Except.ok (String.mk ((toISOString ms).takeWhile (fun c => c != 'T')))

/-- The UTC calendar date of a time value, rendered as `YYYY-MM-DD`
(the spec's description of what `normalizeDate` stores). -/
def utcCalendarDateString (ms : Int) : String := String.mk (isoDatePart ms)

/-! ## Connection cache

Model of `connectToDatabase` (the cached-connection helper).  The global
cache `{ conn, promise }` is explicit state; connection attempts and
connections are identified by `Nat` ids (object identity).  A call runs
in two steps separated by the `await`:

* `start` is the synchronous part up to `await cached.promise`: return
  the cached connection if present, otherwise reuse the in-flight
  attempt, otherwise call `mongoose.connect` (recording that a fresh
  attempt was created) and cache its promise;
* `finish` is the continuation once the awaited attempt settles: on
  success store the connection in `cached.conn` and return it, on
  failure clear `cached.promise` and rethrow. -/

structure ConnectionCache where
  conn : Option Nat
  promise : Option Nat
deriving DecidableEq, Repr

/-- Result of the synchronous part of a `connectToDatabase` call. -/
inductive StartResult
  /-- `cached.conn` existed and was returned without awaiting. -/
  | immediate (c : Nat)
  /-- The call suspends awaiting attempt `attempt`; `created` records
  whether this call invoked `mongoose.connect` (true) or reused the
  cached in-flight promise (false). -/
  | awaiting (attempt : Nat) (created : Bool)
deriving DecidableEq, Repr

def start (st : ConnectionCache) (fresh : Nat) : ConnectionCache × StartResult :=
  match st.conn with
  | some c => (st, StartResult.immediate c)
  | none =>
    match st.promise with
    | some p => (st, StartResult.awaiting p false)
    | none => ({ st with promise := some fresh }, StartResult.awaiting fresh true)

def finish (st : ConnectionCache) (r : Except String Nat) :
    ConnectionCache × Except String Nat :=
  match r with
  | Except.ok c => ({ st with conn := some c }, Except.ok c)
  | Except.error e => ({ st with promise := none }, Except.error e)

/-- The cache before any call: `{ conn: null, promise: null }`. -/
def emptyCache : ConnectionCache := { conn := none, promise := none }

/-! ## Booking model

Model of the booking schema's pre-save hook: the email must match
`/^[^\s@]+@[^\s@]+\.[^\s@]+$/` and the referenced event must exist. -/

/-- The regex class `[^\s@]`. -/
def isEmailAtomChar (c : Char) : Bool := !isJsWhitespace c && c != '@'

/-- Split a list at the first occurrence of `c`, failing if absent. -/
def splitAtChar (c : Char) : List Char → Option (List Char × List Char)
  | [] => none
  | x :: rest =>
    if x = c then some ([], rest)
    else
      match splitAtChar c rest with
      | some (l, r) => some (x :: l, r)
      | none => none

/-- `rest` (the part after the `@`) contains a dot that is neither its
first nor its last character, i.e. it decomposes as
`[^\s@]+ "." [^\s@]+` once every character is known to be in `[^\s@]`. -/
def hasInnerDot (cs : List Char) : Bool :=
  match cs with
  | [] => false
  | _ :: rest => rest.dropLast.contains '.'

/-- Model of `emailRegex.test`: the string is `A ++ "@" ++ R` where `A`
is a nonempty run of `[^\s@]`, every character of `R` is in `[^\s@]`,
and `R` splits as `B ++ "." ++ C` with `B`, `C` nonempty.  (Since `[^\s@]`
excludes `@`, the split is necessarily at the string's unique `@`.) -/
def emailRegexTest (s : String) : Bool :=
  match splitAtChar '@' s.data with
  | none => false
  | some (localPart, rest) =>
    !localPart.isEmpty && localPart.all isEmailAtomChar &&
      rest.all isEmailAtomChar && hasInnerDot rest

/-- A booking document as seen by the pre-save hook: the schema
guarantees both fields are present (and has already trimmed and
lowercased the email). -/
structure BookingDoc where
  eventId : Nat
  email : String
deriving DecidableEq, Repr

/-- Model of the booking pre-save hook.  `existingEvents` lists the ids
present in the Event collection; membership models
`Event.exists({ _id: eventId })`. -/
def bookingPreSave (existingEvents : List Nat) (b : BookingDoc) : Except String Unit :=
  if !emailRegexTest b.email then Except.error "Invalid email address"
  else if !existingEvents.contains b.eventId then
    Except.error "Referenced event does not exist"
  else Except.ok ()

/-! ## Event model: pre-save hook

Model of the event schema's pre-save hook.  A field holds `none` when it
is absent (or not of the schema's type) on the document, matching the
`typeof value !== "string"` / `!Array.isArray(value)` guards.  The
`isModified("title")` flag is passed in as `titleModified`, and the local
time zone for date parsing as `tzOffsetMinutes`. -/

structure EventDoc where
  title : Option String
  slug : Option String
  description : Option String
  overview : Option String
  image : Option String
  venue : Option String
  location : Option String
  date : Option String
  time : Option String
  mode : Option String
  audience : Option String
  agenda : Option (List String)
  organizer : Option String
  tags : Option (List String)
deriving DecidableEq, Repr

/-- The `requiredStringFields` list of the hook, paired with each field's
current value. -/
def requiredStringFields (ev : EventDoc) : List (String × Option String) :=
  [("title", ev.title), ("description", ev.description),
   ("overview", ev.overview), ("image", ev.image), ("venue", ev.venue),
   ("location", ev.location), ("date", ev.date), ("time", ev.time),
   ("mode", ev.mode), ("audience", ev.audience), ("organizer", ev.organizer)]

/-- The check `typeof value === "string" && value.trim().length !== 0`. -/
def stringFieldOk (v : Option String) : Bool :=
  match v with
  | some s => !(trimJs s.data).isEmpty
  | none => false

/-- The loop over `requiredStringFields`: name of the first field that
fails the check, if any (the loop throws at the first failure). -/
def firstMissingField : List (String × Option String) → Option String
  | [] => none
  | (name, v) :: rest =>
    if stringFieldOk v then firstMissingField rest else some name

/-- The per-field body of the loop over `requiredArrayFields`: the error
message it throws for this field, if any. -/
def arrayFieldError (name : String) (v : Option (List String)) : Option String :=
  match v with
  | none => some ("Field \"" ++ name ++ "\" must be a non-empty array")
  | some l =>
    if l.isEmpty then some ("Field \"" ++ name ++ "\" must be a non-empty array")
    else if l.any (fun item => (trimJs item.data).isEmpty) then
      some ("Field \"" ++ name ++ "\" must contain only non-empty strings")
    else none

/-- The array check as a boolean: a present, non-empty list of strings
that are all non-empty after trimming. -/
def arrayFieldOk (v : Option (List String)) : Bool :=
  match v with
  | none => false
  | some l => !l.isEmpty && l.all (fun item => !(trimJs item.data).isEmpty)

/-- JavaScript truthiness of `this.slug` (a string field): `undefined`
and the empty string are falsy. -/
def slugTruthy (v : Option String) : Bool :=
  match v with
  | none => false
  | some s => !s.data.isEmpty

/-- Model of the event pre-save hook: validate the required string
fields, then `agenda` and `tags`, then normalize `date` and `time`, then
regenerate the slug when the title changed or the slug is falsy.  On the
normalization path the validated fields are known to be present, so
`Option.getD` never takes its default. -/
def eventPreSave (tzOffsetMinutes : Int) (titleModified : Bool) (ev : EventDoc) :
    Except String EventDoc :=
  match firstMissingField (requiredStringFields ev) with
  | some name => Except.error ("Field \"" ++ name ++ "\" is required")
  | none =>
    match arrayFieldError "agenda" ev.agenda with
    | some e => Except.error e
    | none =>
      match arrayFieldError "tags" ev.tags with
      | some e => Except.error e
      | none =>
        match normalizeDate tzOffsetMinutes (ev.date.getD "") with
        | Except.error e => Except.error e
        | Except.ok d =>
          match normalizeTime (ev.time.getD "") with
          | Except.error e => Except.error e
          | Except.ok t =>
            let ev1 := { ev with date := some d, time := some t }
            if titleModified || !slugTruthy ev1.slug then
              Except.ok { ev1 with slug := some (generateSlug (ev1.title.getD "")) }
            else Except.ok ev1

/-- An otherwise valid event whose venue is whitespace only — it fails
the non-empty-after-trimming check. -/
def badVenueEventDoc : EventDoc :=
  { title := some "A Title", slug := none, description := some "d",
    overview := some "o", image := some "i", venue := some "  ",
    location := some "l", date := some "2024-03-05", time := some "10:00",
    mode := some "m", audience := some "aud", agenda := some ["item"],
    organizer := some "org", tags := some ["tag"] }

/-- A valid event whose title `"!!!"` contains no letters or digits. -/
def exclaimTitleEvent : EventDoc :=
  { title := some "!!!", slug := none, description := some "d",
    overview := some "o", image := some "i", venue := some "v",
    location := some "l", date := some "2024-03-05", time := some "10:00",
    mode := some "m", audience := some "aud", agenda := some ["item"],
    organizer := some "org", tags := some ["tag"] }

/-- A valid event carrying an empty (falsy) slug next to an ordinary
title. -/
def emptySlugEvent : EventDoc :=
  { title := some "Valid Title", slug := some "", description := some "d",
    overview := some "o", image := some "i", venue := some "v",
    location := some "l", date := some "2024-03-05", time := some "10:00",
    mode := some "m", audience := some "aud", agenda := some ["item"],
    organizer := some "org", tags := some ["tag"] }

/-! ## Helper lemmas: characters, digits, padding, trimming -/

theorem char_eq_of_toNat_eq {a b : Char} (h : a.toNat = b.toNat) : a = b :=
  Char.eq_of_val_eq (UInt32.ext h)

theorem digitChar_isDigit (n : Nat) : isDigitCh (digitChar n) = true := by
  unfold digitChar
  split
  all_goals decide

theorem digitChar_toNat (n : Nat) : (digitChar n).toNat = 48 + n % 10 := by
  have h : n % 10 < 10 := Nat.mod_lt _ (by omega)
  unfold digitChar
  split
  all_goals simp_all
  all_goals omega

theorem digitVal_le9 {c : Char} (h : isDigitCh c = true) : digitVal c ≤ 9 := by
  simp only [isDigitCh, decide_eq_true_eq] at h
  unfold digitVal
  omega

theorem digitChar_digitVal {c : Char} (h : isDigitCh c = true) :
    digitChar (digitVal c) = c := by
  simp only [isDigitCh, decide_eq_true_eq] at h
  apply char_eq_of_toNat_eq
  rw [digitChar_toNat]
  unfold digitVal
  omega

theorem digit_not_ws {c : Char} (h : isDigitCh c = true) :
    isJsWhitespace c = false := by
  simp only [isDigitCh, decide_eq_true_eq] at h
  rw [Bool.eq_false_iff]
  intro hw
  have hmem : c.toNat ∈ jsWhitespaceCodes := List.elem_iff.mp hw
  simp only [jsWhitespaceCodes, List.mem_cons, List.not_mem_nil, or_false] at hmem
  omega

theorem digit_ne_of_toNat_gt {c d : Char} (h : isDigitCh c = true)
    (hd : 57 < d.toNat) : c ≠ d := by
  simp only [isDigitCh, decide_eq_true_eq] at h
  intro he
  subst he
  omega

theorem natDigitsAux_congr :
    ∀ (n f1 f2 : Nat), n < f1 → n < f2 → natDigitsAux f1 n = natDigitsAux f2 n := by
  intro n
  induction n using Nat.strong_induction_on with
  | _ n ih =>
    intro f1 f2 h1 h2
    match f1, f2 with
    | g1 + 1, g2 + 1 =>
      show (if n < 10 then [digitChar n]
          else natDigitsAux g1 (n / 10) ++ [digitChar (n % 10)]) =
        (if n < 10 then [digitChar n]
          else natDigitsAux g2 (n / 10) ++ [digitChar (n % 10)])
      by_cases h : n < 10
      · rw [if_pos h, if_pos h]
      · rw [if_neg h, if_neg h]
        have hdiv : n / 10 < n := Nat.div_lt_self (by omega) (by omega)
        rw [ih (n / 10) hdiv g1 (g2 + 1) (by omega) (by omega),
          ih (n / 10) hdiv (g2 + 1) g2 (by omega) (by omega)]

theorem natDigits_lt10 {n : Nat} (h : n < 10) : natDigits n = [digitChar n] := by
  unfold natDigits natDigitsAux
  rw [if_pos h]

theorem natDigits_ge10 {n : Nat} (h : ¬n < 10) :
    natDigits n = natDigits (n / 10) ++ [digitChar (n % 10)] := by
  unfold natDigits
  show (if n < 10 then [digitChar n]
      else natDigitsAux n (n / 10) ++ [digitChar (n % 10)]) = _
  rw [if_neg h]
  have hdiv : n / 10 < n := Nat.div_lt_self (by omega) (by omega)
  rw [natDigitsAux_congr (n / 10) n (n / 10 + 1) (by omega) (by omega)]

theorem natDigits_all_digit (n : Nat) : ∀ c ∈ natDigits n, isDigitCh c = true := by
  induction n using Nat.strong_induction_on with
  | _ n ih =>
    by_cases h : n < 10
    · rw [natDigits_lt10 h]
      intro c hc
      rw [List.mem_singleton] at hc
      subst hc
      exact digitChar_isDigit n
    · rw [natDigits_ge10 h]
      intro c hc
      rcases List.mem_append.mp hc with hc | hc
      · exact ih (n / 10) (Nat.div_lt_self (by omega) (by omega)) c hc
      · rw [List.mem_singleton] at hc
        subst hc
        exact digitChar_isDigit (n % 10)

theorem mem_padTo {w : Nat} {l : List Char} {c : Char} (h : c ∈ padTo w l) :
    c = '0' ∨ c ∈ l := by
  unfold padTo at h
  rcases List.mem_append.mp h with h | h
  · exact Or.inl (List.eq_of_mem_replicate h)
  · exact Or.inr h

theorem pad2_two_digits {x y : Nat} (hx : x ≤ 9) (hy : y ≤ 9) :
    pad2 (10 * x + y) = [digitChar x, digitChar y] := by
  unfold pad2 padTo
  by_cases h0 : x = 0
  · subst h0
    rw [natDigits_lt10 (by omega)]
    have : digitChar 0 = '0' := by decide
    simp [this]
  · have h10 : ¬10 * x + y < 10 := by omega
    rw [natDigits_ge10 h10]
    have hdiv : (10 * x + y) / 10 = x := by omega
    have hmod : (10 * x + y) % 10 = y := by omega
    rw [hdiv, hmod, natDigits_lt10 (by omega)]
    simp

theorem pad2_length {n : Nat} (h : n < 100) : (pad2 n).length = 2 := by
  unfold pad2 padTo
  by_cases h10 : n < 10
  · rw [natDigits_lt10 h10]
    simp
  · rw [natDigits_ge10 h10]
    rw [natDigits_lt10 (by omega)]
    simp

theorem dropWhile_eq_self_of_all {p : Char → Bool} {l : List Char}
    (h : ∀ c ∈ l, p c = false) : l.dropWhile p = l := by
  cases l with
  | nil => rfl
  | cons c t =>
    rw [List.dropWhile_cons, h c (List.mem_cons_self c t)]
    simp

theorem trimJs_eq_self {l : List Char} (h : ∀ c ∈ l, isJsWhitespace c = false) :
    trimJs l = l := by
  unfold trimJs
  rw [dropWhile_eq_self_of_all h,
    dropWhile_eq_self_of_all (fun c hc => h c (List.mem_reverse.mp hc)),
    List.reverse_reverse]

theorem takeWhile_append_sentinel {l r : List Char}
    (h : ∀ c ∈ l, (c != 'T') = true) :
    (l ++ 'T' :: r).takeWhile (fun c => c != 'T') = l := by
  induction l with
  | nil => simp [List.takeWhile_cons]
  | cons c t ih =>
    rw [List.cons_append, List.takeWhile_cons, h c (List.mem_cons_self c t)]
    simp only [if_true]
    rw [ih (fun x hx => h x (List.mem_cons_of_mem c hx))]

/-! ## Claims about time normalization and slug generation -/

/-- C1 (counterexample): the claim says `normalizeTime "9:5"` succeeds
and returns `"09:05"`.  It does not: the minute capture of
`^(\d{1,2}):(\d{2})(?::\d{2})?$` requires exactly two digits, so `"9:5"`
fails the format match and `normalizeTime` raises the format error. -/
theorem normalizeTime_rejects_single_digit_minute :
    normalizeTime "9:5" = Except.error "Invalid event time format (expected HH:mm)" ∧
      normalizeTime "9:5" ≠ Except.ok "09:05" := by
  have he : normalizeTime "9:5" =
      Except.error "Invalid event time format (expected HH:mm)" := by decide
  exact ⟨he, fun h => Except.noConfusion (he ▸ h)⟩

/-- C1 (amended): a single-digit hour is accepted and zero-padded — for
the input `"9:05"`, `normalizeTime` succeeds and returns `"09:05"` —
while a single-digit minute such as in `"9:5"` is rejected. -/
theorem normalizeTime_pads_single_digit_hour :
    normalizeTime "9:05" = Except.ok "09:05" := by decide

/-- C2: a time string matching the accepted shape with hour above 23 or
minute above 59 raises the range error; a string not matching the shape
raises the format error; `"24:00"` raises an error; and every successful
result is the zero-padded five-character `HH:MM` with hour at most 23 and
minute at most 59.  (The hour and minute captures are digit strings, so
the source's `< 0` checks are vacuous.) -/
theorem normalizeTime_ranges :
    (∀ s h m, timeMatch (trimJs s.data) = some (h, m) → 23 < h ∨ 59 < m →
      normalizeTime s = Except.error "Invalid event time value") ∧
    (∀ s, timeMatch (trimJs s.data) = none →
      normalizeTime s = Except.error "Invalid event time format (expected HH:mm)") ∧
    normalizeTime "24:00" = Except.error "Invalid event time value" ∧
    (∀ s r, normalizeTime s = Except.ok r →
      ∃ h m, h ≤ 23 ∧ m ≤ 59 ∧ r = String.mk (pad2 h ++ ':' :: pad2 m) ∧ r.length = 5) := by
  refine ⟨?_, ?_, by decide, ?_⟩
  · intro s h m heq hrange
    unfold normalizeTime
    rw [heq]
    dsimp only
    rw [if_pos hrange]
  · intro s heq
    unfold normalizeTime
    rw [heq]
  · intro s r hok
    unfold normalizeTime at hok
    cases heq : timeMatch (trimJs s.data) with
    | none => rw [heq] at hok; exact Except.noConfusion hok
    | some hm =>
      obtain ⟨h, m⟩ := hm
      rw [heq] at hok
      dsimp only at hok
      by_cases hrange : 23 < h ∨ 59 < m
      · rw [if_pos hrange] at hok
        exact Except.noConfusion hok
      · rw [if_neg hrange] at hok
        have hr : r = String.mk (pad2 h ++ ':' :: pad2 m) := (Except.ok.inj hok).symm
        refine ⟨h, m, by omega, by omega, hr, ?_⟩
        have hlen : (pad2 h).length = 2 := pad2_length (by omega)
        have mlen : (pad2 m).length = 2 := pad2_length (by omega)
        rw [hr]
        show (pad2 h ++ ':' :: pad2 m).length = 5
        simp [hlen, mlen]

/-- Witness for C2: the range branch at `"99:00"` and the format branch
at `"abc"`, both obtained from the theorem at concrete inputs. -/
theorem normalizeTime_ranges_witness :
    normalizeTime "99:00" = Except.error "Invalid event time value" ∧
      normalizeTime "abc" = Except.error "Invalid event time format (expected HH:mm)" :=
  ⟨normalizeTime_ranges.1 "99:00" 99 0 (by decide) (by omega),
    normalizeTime_ranges.2.1 "abc" (by decide)⟩

/-- C3: slug generation lowercases, strips the punctuation, collapses the
whitespace run to a single dash: the title `"Hello, World!  Foo"` yields
the slug `"hello-world-foo"`. -/
theorem generateSlug_example :
    generateSlug "Hello, World!  Foo" = "hello-world-foo" := by decide

/-- C10: a two-digit seconds component is accepted without any range
check and dropped: for digit characters `a b c d e f` with hour value at
most 23 and minute value at most 59, `normalizeTime "ab:cd:ef"` succeeds
and returns `"ab:cd"` whatever the seconds digits are. -/
theorem normalizeTime_drops_seconds (a b c d e f : Char)
    (ha : isDigitCh a = true) (hb : isDigitCh b = true)
    (hc : isDigitCh c = true) (hd : isDigitCh d = true)
    (he : isDigitCh e = true) (hf : isDigitCh f = true)
    (hh : 10 * digitVal a + digitVal b ≤ 23)
    (hm : 10 * digitVal c + digitVal d ≤ 59) :
    normalizeTime (String.mk [a, b, ':', c, d, ':', e, f]) =
      Except.ok (String.mk [a, b, ':', c, d]) := by
  have hself : trimJs (String.mk [a, b, ':', c, d, ':', e, f]).data =
      [a, b, ':', c, d, ':', e, f] := by
    apply trimJs_eq_self
    intro x hx
    simp only [List.mem_cons, List.not_mem_nil, or_false] at hx
    rcases hx with rfl | rfl | rfl | rfl | rfl | rfl | rfl | rfl
    · exact digit_not_ws ha
    · exact digit_not_ws hb
    · decide
    · exact digit_not_ws hc
    · exact digit_not_ws hd
    · decide
    · exact digit_not_ws he
    · exact digit_not_ws hf
  have htm : timeMatch [a, b, ':', c, d, ':', e, f] =
      some (10 * digitVal a + digitVal b, 10 * digitVal c + digitVal d) := by
    show (if (':' : Char) = ':' ∧ (':' : Char) = ':' ∧ isDigitCh a = true ∧
        isDigitCh b = true ∧ isDigitCh c = true ∧ isDigitCh d = true ∧
        isDigitCh e = true ∧ isDigitCh f = true then
        some (10 * digitVal a + digitVal b, 10 * digitVal c + digitVal d) else none) =
      some (10 * digitVal a + digitVal b, 10 * digitVal c + digitVal d)
    rw [if_pos ⟨rfl, rfl, ha, hb, hc, hd, he, hf⟩]
  have hab : pad2 (10 * digitVal a + digitVal b) = [a, b] := by
    rw [pad2_two_digits (digitVal_le9 ha) (digitVal_le9 hb),
      digitChar_digitVal ha, digitChar_digitVal hb]
  have hcd : pad2 (10 * digitVal c + digitVal d) = [c, d] := by
    rw [pad2_two_digits (digitVal_le9 hc) (digitVal_le9 hd),
      digitChar_digitVal hc, digitChar_digitVal hd]
  unfold normalizeTime
  rw [hself, htm]
  dsimp only
  rw [if_neg (by omega), hab, hcd]
  rfl

/-- Witness for C10: the out-of-range seconds `"10:30:99"` are accepted
and dropped, giving `"10:30"`. -/
theorem normalizeTime_drops_seconds_witness :
    normalizeTime "10:30:99" = Except.ok "10:30" :=
  normalizeTime_drops_seconds '1' '0' '3' '0' '9' '9'
    (by decide) (by decide) (by decide) (by decide) (by decide) (by decide)
    (by decide) (by decide)

/-! ## Claims about date normalization -/

theorem mem_pad2_digit {n : Nat} {c : Char} (h : c ∈ pad2 n) : isDigitCh c = true := by
  rcases mem_padTo h with h | h
  · subst h
    decide
  · exact natDigits_all_digit n c h

theorem mem_isoYearChars {y : Int} {c : Char} (h : c ∈ isoYearChars y) :
    isDigitCh c = true ∨ c = '-' ∨ c = '+' := by
  unfold isoYearChars at h
  split at h
  · rcases mem_padTo h with h | h
    · exact Or.inl (h ▸ by decide)
    · exact Or.inl (natDigits_all_digit _ c h)
  · split at h
    · rcases List.mem_cons.mp h with h | h
      · exact Or.inr (Or.inl h)
      · rcases mem_padTo h with h | h
        · exact Or.inl (h ▸ by decide)
        · exact Or.inl (natDigits_all_digit _ c h)
    · rcases List.mem_cons.mp h with h | h
      · exact Or.inr (Or.inr h)
      · rcases mem_padTo h with h | h
        · exact Or.inl (h ▸ by decide)
        · exact Or.inl (natDigits_all_digit _ c h)

theorem isoDatePart_ne_T (ms : Int) : ∀ c ∈ isoDatePart ms, (c != 'T') = true := by
  intro c hc
  rw [bne_iff_ne]
  unfold isoDatePart at hc
  rcases List.mem_append.mp hc with h | h
  · rcases List.mem_append.mp h with h | h
    · rcases mem_isoYearChars h with h | h | h
      · exact digit_ne_of_toNat_gt h (by decide)
      · subst h
        decide
      · subst h
        decide
    · rcases List.mem_cons.mp h with h | h
      · subst h
        decide
      · exact digit_ne_of_toNat_gt (mem_pad2_digit h) (by decide)
  · rcases List.mem_cons.mp h with h | h
    · subst h
      decide
    · exact digit_ne_of_toNat_gt (mem_pad2_digit h) (by decide)

/-- C4: `normalizeDate` maps every string the date model parses to the
`YYYY-MM-DD` rendering of its UTC calendar date, and raises the
`"Invalid event date"` error on every string it does not parse.  The
third conjunct spells out the `YYYY-MM-DD` shape of the stored value
whenever the UTC year has at most four digits. -/
theorem normalizeDate_spec (tz : Int) (s : String) :
    (∀ ms, jsDateParse tz s = some ms →
      normalizeDate tz s = Except.ok (utcCalendarDateString ms)) ∧
    (jsDateParse tz s = none →
      normalizeDate tz s = Except.error "Invalid event date") ∧
    (∀ ms y m d, jsDateParse tz s = some ms →
      civilFromDays (ms / msPerDay) = (y, m, d) → 0 ≤ y → y ≤ 9999 →
      utcCalendarDateString ms =
        String.mk (padTo 4 (natDigits y.toNat) ++ '-' :: pad2 m ++ '-' :: pad2 d)) := by
  refine ⟨?_, ?_, ?_⟩
  · intro ms h
    unfold normalizeDate
    rw [h]
    dsimp only
    unfold toISOString
    rw [takeWhile_append_sentinel (isoDatePart_ne_T ms)]
    rfl
  · intro h
    unfold normalizeDate
    rw [h]
  · intro ms y m d _hms hciv hy0 hy9
    unfold utcCalendarDateString isoDatePart
    rw [hciv]
    dsimp only
    unfold isoYearChars
    rw [if_pos ⟨hy0, hy9⟩]

/-- Witness for C4: `"2024-03-05T10:00:00Z"` parses to the time value
1709632800000 and is stored as `"2024-03-05"`; `"not-a-date"` fails. -/
theorem normalizeDate_spec_witness :
    normalizeDate 0 "2024-03-05T10:00:00Z" = Except.ok "2024-03-05" ∧
      normalizeDate 0 "not-a-date" = Except.error "Invalid event date" := by
  constructor
  · rw [(normalizeDate_spec 0 "2024-03-05T10:00:00Z").1 1709632800000 (by decide)]
    decide
  · exact (normalizeDate_spec 0 "not-a-date").2.1 (by decide)

/-! ## Claims about the connection cache -/

/-- C5: once a connection `c` is cached, a call returns it synchronously
without touching the state or creating a new attempt; and from the empty
cache, the first call creates attempt `f` and caches its promise, a
second call issued before resolution awaits the same attempt `f` without
creating anything, and when `f` resolves to `c` both suspended calls
return the identical connection `c`. -/
theorem connectToDatabase_single_flight (st : ConnectionCache) (c f g : Nat)
    (h : st.conn = some c) :
    start st f = (st, StartResult.immediate c) ∧
    start emptyCache f =
      ({ conn := none, promise := some f }, StartResult.awaiting f true) ∧
    start { conn := none, promise := some f } g =
      ({ conn := none, promise := some f }, StartResult.awaiting f false) ∧
    finish { conn := none, promise := some f } (Except.ok c) =
      ({ conn := some c, promise := some f }, Except.ok c) ∧
    finish { conn := some c, promise := some f } (Except.ok c) =
      ({ conn := some c, promise := some f }, Except.ok c) := by
  refine ⟨?_, rfl, rfl, rfl, rfl⟩
  unfold start
  rw [h]

/-- Witness for C5 at a concrete cached state. -/
theorem connectToDatabase_single_flight_witness :
    start { conn := some 42, promise := some 7 } 9 =
      ({ conn := some 42, promise := some 7 }, StartResult.immediate 42) :=
  (connectToDatabase_single_flight { conn := some 42, promise := some 7 } 42 7 9 rfl).1

/-- C6: when the awaited attempt fails, the call rethrows the error and
clears the cached promise (leaving the cached connection untouched, here
absent), and a later call then starts a fresh connection attempt. -/
theorem connectToDatabase_error_resets (st : ConnectionCache) (e : String) (f : Nat)
    (h : st.conn = none) :
    finish st (Except.error e) = ({ st with promise := none }, Except.error e) ∧
    start (finish st (Except.error e)).1 f =
      ({ conn := none, promise := some f }, StartResult.awaiting f true) := by
  obtain ⟨conn0, promise0⟩ := st
  dsimp only at h
  subst h
  exact ⟨rfl, rfl⟩

/-- Witness for C6 at a concrete failed state. -/
theorem connectToDatabase_error_resets_witness :
    finish { conn := none, promise := some 7 } (Except.error "boom") =
      ({ conn := none, promise := none }, Except.error "boom") ∧
    start (finish { conn := none, promise := some 7 } (Except.error "boom")).1 3 =
      ({ conn := none, promise := some 3 }, StartResult.awaiting 3 true) :=
  connectToDatabase_error_resets { conn := none, promise := some 7 } "boom" 3 rfl

/-! ## Claims about the booking pre-save hook -/

/-- C7: a booking save fails exactly when the email fails the regex test
or the referenced event id is not in the Event collection; and the email
`"foo@bar"` (no dot after the `@`) fails the test. -/
theorem bookingPreSave_fail_iff (existingEvents : List Nat) (b : BookingDoc) :
    ((∃ e, bookingPreSave existingEvents b = Except.error e) ↔
      (emailRegexTest b.email = false ∨ existingEvents.contains b.eventId = false)) ∧
    emailRegexTest "foo@bar" = false := by
  refine ⟨?_, by decide⟩
  unfold bookingPreSave
  constructor
  · intro ⟨e, he⟩
    by_cases hm : emailRegexTest b.email
    · rw [hm] at he
      simp only [Bool.not_true, Bool.false_eq_true, if_false] at he
      by_cases hc : existingEvents.contains b.eventId
      · rw [hc] at he
        simp only [Bool.not_true, Bool.false_eq_true, if_false] at he
        exact Except.noConfusion he
      · exact Or.inr (Bool.eq_false_iff.mpr hc)
    · exact Or.inl (Bool.eq_false_iff.mpr hm)
  · intro hbad
    by_cases hm : emailRegexTest b.email
    · rcases hbad with hbad | hbad
      · rw [hm] at hbad
        exact Bool.noConfusion hbad
      · rw [hm, hbad]
        exact ⟨"Referenced event does not exist", rfl⟩
    · rw [Bool.eq_false_iff.mpr hm]
      exact ⟨"Invalid email address", rfl⟩

/-- Witness for C7: a malformed email fails the save, and with a valid
email a booking referencing an absent event fails the save. -/
theorem bookingPreSave_fail_iff_witness :
    (∃ e, bookingPreSave [5] { eventId := 5, email := "foo@bar" } = Except.error e) ∧
    (∃ e, bookingPreSave [5] { eventId := 3, email := "a@b.c" } = Except.error e) :=
  ⟨(bookingPreSave_fail_iff [5] { eventId := 5, email := "foo@bar" }).1.mpr
      (Or.inl (by decide)),
    (bookingPreSave_fail_iff [5] { eventId := 3, email := "a@b.c" }).1.mpr
      (Or.inr (by decide))⟩

/-! ## Claims about the event pre-save hook -/

theorem firstMissingField_some {l : List (String × Option String)} {name : String}
    (h : firstMissingField l = some name) :
    ∃ v, (name, v) ∈ l ∧ stringFieldOk v = false := by
  induction l with
  | nil => exact absurd h (by simp [firstMissingField])
  | cons p rest ih =>
    obtain ⟨pn, pv⟩ := p
    unfold firstMissingField at h
    by_cases hok : stringFieldOk pv
    · rw [if_pos hok] at h
      obtain ⟨v, hv, hbad⟩ := ih h
      exact ⟨v, List.mem_cons_of_mem _ hv, hbad⟩
    · rw [if_neg hok] at h
      obtain rfl := Option.some.inj h
      exact ⟨pv, List.mem_cons_self _ _, Bool.eq_false_iff.mpr hok⟩

theorem firstMissingField_none {l : List (String × Option String)}
    (h : firstMissingField l = none) : ∀ p ∈ l, stringFieldOk p.2 = true := by
  induction l with
  | nil => intro p hp; exact absurd hp (List.not_mem_nil p)
  | cons q rest ih =>
    obtain ⟨qn, qv⟩ := q
    unfold firstMissingField at h
    by_cases hok : stringFieldOk qv
    · rw [if_pos hok] at h
      intro p hp
      rcases List.mem_cons.mp hp with hp | hp
      · subst hp
        exact hok
      · exact ih h p hp
    · rw [if_neg hok] at h
      exact Option.noConfusion h

theorem arrayFieldError_none {name : String} {v : Option (List String)}
    (h : arrayFieldError name v = none) : arrayFieldOk v = true := by
  cases v with
  | none => exact Option.noConfusion h
  | some l =>
    unfold arrayFieldError at h
    dsimp only at h
    by_cases he : l.isEmpty
    · rw [if_pos he] at h
      exact Option.noConfusion h
    · rw [if_neg he] at h
      by_cases ha : l.any (fun item => (trimJs item.data).isEmpty)
      · rw [if_pos ha] at h
        exact Option.noConfusion h
      · unfold arrayFieldOk
        dsimp only
        rw [Bool.eq_false_iff.mpr he]
        simp only [Bool.not_false, Bool.true_and, List.all_eq_true]
        intro item hitem
        rw [Bool.not_eq_true']
        rw [Bool.eq_false_iff]
        intro hemp
        exact ha (List.any_eq_true.mpr ⟨item, hitem, hemp⟩)

theorem arrayFieldError_some {name e : String} {v : Option (List String)}
    (h : arrayFieldError name v = some e) :
    arrayFieldOk v = false ∧
      (e = "Field \"" ++ name ++ "\" must be a non-empty array" ∨
        e = "Field \"" ++ name ++ "\" must contain only non-empty strings") := by
  cases v with
  | none => exact ⟨rfl, Or.inl (Option.some.inj h).symm⟩
  | some l =>
    unfold arrayFieldError at h
    dsimp only at h
    unfold arrayFieldOk
    dsimp only
    by_cases he : l.isEmpty
    · rw [if_pos he] at h
      rw [he]
      exact ⟨rfl, Or.inl (Option.some.inj h).symm⟩
    · rw [if_neg he] at h
      by_cases ha : l.any (fun item => (trimJs item.data).isEmpty)
      · rw [if_pos ha] at h
        refine ⟨?_, Or.inr (Option.some.inj h).symm⟩
        rw [Bool.eq_false_iff]
        intro hok
        rcases List.any_eq_true.mp ha with ⟨item, hitem, hemp⟩
        have := (Bool.and_eq_true _ _).mp hok
        have hall := List.all_eq_true.mp this.2 item hitem
        rw [hemp] at hall
        exact Bool.noConfusion hall
      · rw [if_neg ha] at h
        exact Option.noConfusion h

/-- C8: whenever one of the eleven required string fields is absent or
empty after trimming, or `agenda` or `tags` fails the non-empty-array-of-
non-empty-strings check, the event pre-save hook fails with one of the
three validation messages naming an offending field. -/
theorem eventPreSave_field_errors (tz : Int) (tm : Bool) (ev : EventDoc)
    (h : (∃ p ∈ requiredStringFields ev, stringFieldOk p.2 = false) ∨
      arrayFieldOk ev.agenda = false ∨ arrayFieldOk ev.tags = false) :
    ∃ name msg, eventPreSave tz tm ev = Except.error msg ∧
      ((∃ v, (name, v) ∈ requiredStringFields ev ∧ stringFieldOk v = false) ∨
        (name = "agenda" ∧ arrayFieldOk ev.agenda = false) ∨
        (name = "tags" ∧ arrayFieldOk ev.tags = false)) ∧
      (msg = "Field \"" ++ name ++ "\" is required" ∨
        msg = "Field \"" ++ name ++ "\" must be a non-empty array" ∨
        msg = "Field \"" ++ name ++ "\" must contain only non-empty strings") := by
  cases hfm : firstMissingField (requiredStringFields ev) with
  | some name =>
    obtain ⟨v, hmem, hbad⟩ := firstMissingField_some hfm
    refine ⟨name, _, ?_, Or.inl ⟨v, hmem, hbad⟩, Or.inl rfl⟩
    unfold eventPreSave
    rw [hfm]
  | none =>
    have hall := firstMissingField_none hfm
    have hstr : ¬∃ p ∈ requiredStringFields ev, stringFieldOk p.2 = false := by
      rintro ⟨p, hp, hbad⟩
      rw [hall p hp] at hbad
      exact Bool.noConfusion hbad
    cases hag : arrayFieldError "agenda" ev.agenda with
    | some e =>
      obtain ⟨hbadag, hmsg⟩ := arrayFieldError_some hag
      refine ⟨"agenda", e, ?_, Or.inr (Or.inl ⟨rfl, hbadag⟩), ?_⟩
      · unfold eventPreSave
        rw [hfm]
        dsimp only
        rw [hag]
      · rcases hmsg with h1 | h1
        · exact Or.inr (Or.inl h1)
        · exact Or.inr (Or.inr h1)
    | none =>
      have hagok := arrayFieldError_none hag
      cases htg : arrayFieldError "tags" ev.tags with
      | some e =>
        obtain ⟨hbadtg, hmsg⟩ := arrayFieldError_some htg
        refine ⟨"tags", e, ?_, Or.inr (Or.inr ⟨rfl, hbadtg⟩), ?_⟩
        · unfold eventPreSave
          rw [hfm]
          dsimp only
          rw [hag]
          dsimp only
          rw [htg]
        · rcases hmsg with h1 | h1
          · exact Or.inr (Or.inl h1)
          · exact Or.inr (Or.inr h1)
      | none =>
        have htgok := arrayFieldError_none htg
        rcases h with h | h | h
        · exact absurd h hstr
        · rw [hagok] at h
          exact Bool.noConfusion h
        · rw [htgok] at h
          exact Bool.noConfusion h

/-- Witness for C8: the whitespace-only venue makes the save fail with a
field-naming error. -/
theorem eventPreSave_field_errors_witness :
    ∃ name msg, eventPreSave 0 true badVenueEventDoc = Except.error msg ∧
      ((∃ v, (name, v) ∈ requiredStringFields badVenueEventDoc ∧
          stringFieldOk v = false) ∨
        (name = "agenda" ∧ arrayFieldOk badVenueEventDoc.agenda = false) ∨
        (name = "tags" ∧ arrayFieldOk badVenueEventDoc.tags = false)) ∧
      (msg = "Field \"" ++ name ++ "\" is required" ∨
        msg = "Field \"" ++ name ++ "\" must be a non-empty array" ∨
        msg = "Field \"" ++ name ++ "\" must contain only non-empty strings") :=
  eventPreSave_field_errors 0 true badVenueEventDoc
    (Or.inl ⟨("venue", some "  "), by decide, by decide⟩)

/-- C9: the title `"!!!"` has no letters or digits, so its slug is the
empty string; the pre-save hook accepts it (the slug is not among the
validated fields), an event saved with it carries the empty slug, the
empty slug is falsy so a second save regenerates it (still empty), and
an event holding an empty slug regenerates it from the title even when
the title was not modified — saved slugs are not guaranteed non-empty. -/
theorem slug_may_be_empty :
    generateSlug "!!!" = "" ∧
    (eventPreSave 0 true exclaimTitleEvent).map EventDoc.slug = Except.ok (some "") ∧
    (eventPreSave 0 false { exclaimTitleEvent with slug := some "" }).map EventDoc.slug =
      Except.ok (some "") ∧
    (eventPreSave 0 false emptySlugEvent).map EventDoc.slug =
      Except.ok (some "valid-title") := by
  refine ⟨by decide, by decide, by decide, by decide⟩

end DevEvents
